import Mathlib

/-!
# Verification of the thesis-matching core of `factoresourcing`

Shallow embedding, in Lean 4, of the matching/ranking core of the repository
(`backend/ai_utils.py`, `backend/fallback_matcher.py`, `backend/vector_store.py`),
together with theorems settling the frozen claims about its specification.

Modelling conventions:
* Python floats are modelled as exact rationals (`ℚ`); Python lists as `List`;
  Python sets (used only through cardinalities of intersections/unions) as `Finset`.
* `for`-loops that append to accumulators are translated as `List.foldl` over the
  iterated list, with the loop body inlined; declarative characterisations
  (`filter`/`map`/`sum` forms) are proved as theorems, not baked into definitions.
* The code paths modelled are the fully deterministic offline ones (no OpenAI key
  configured / pattern-based), which is the scenario the spec's testable
  properties are stated for.  Branches in the source guarded by
  `openai.api_key` are modelled by an explicit `apiKey : Bool` parameter where a
  claim depends on both sides of the branch.
* `try/except` guards in the source protect against exceptions that cannot occur
  in the pure model (the wrapped computations are total), so the `except`
  branches are dead and not modelled, except where noted.
-/

namespace FactorSourcing

open List (Perm)

/-! ## Generic list helpers -/

/-- Sum of weighted contributions: Python `sum(match_scores)`. -/
def listSumQ (l : List ℚ) : ℚ := l.foldl (· + ·) 0

/-- Python `max(best, x)` accumulation starting from `0.0`
(`best_vector_score = 0.0; ...; best = max(best, s)`). -/
def listMax0 (l : List ℚ) : ℚ := l.foldl max 0

/-! ## A stable descending insertion sort

Python's `sorted(l, key=k, reverse=True)` is a *stable* descending sort: elements
with equal keys keep their relative input order.  Stability plus sortedness
determine the output uniquely, so any stable descending sort is a faithful
model; we use insertion sort, inserting each element before the first element
with a strictly smaller key. -/

/-- Insert `x` before the first element whose key is strictly below `key x`
(so `x` lands after earlier-inserted elements with strictly greater keys and
before equal-keyed ones, which in `sortDesc` are later input elements). -/
def insertDesc {α : Type} (key : α → ℚ) (x : α) : List α → List α
  | [] => [x]
  | y :: ys => if key y ≤ key x then x :: y :: ys else y :: insertDesc key x ys

/-- Stable descending sort by `key`: Python `sorted(l, key=key, reverse=True)`. -/
def sortDesc {α : Type} (key : α → ℚ) : List α → List α
  | [] => []
  | x :: xs => insertDesc key x (sortDesc key xs)

/-! ## Python string primitives

ASCII models of the Python string operations the core uses.  All concrete
inputs appearing in the repository's thesis/similarity logic and in our
witnesses are ASCII, where these agree exactly with CPython. -/

/-- Python whitespace (`str.split()`, `\s`, `str.strip()` on ASCII). -/
def isPySpace (c : Char) : Bool :=
  c = ' ' || c = '\t' || c = '\n' || c = '\r' || c = '\x0b' || c = '\x0c'

/-- `str.lower()` on ASCII characters. -/
def lowerChar (c : Char) : Char := c.toLower

/-- `str.lower()` on ASCII strings. -/
def lowerStr (s : String) : String := String.mk (s.data.map lowerChar)

/-- `\w` of Python's `re` on ASCII: letters, digits and underscore. -/
def isWordChar (c : Char) : Bool := c.isAlphanum || c = '_'

/-- Leading-whitespace removal (first half of `str.strip()`). -/
def dropLeadingWs (l : List Char) : List Char := l.dropWhile isPySpace

/-- `str.strip()` on a character list: drop leading and trailing whitespace. -/
def stripChars (l : List Char) : List Char :=
  ((l.dropWhile isPySpace).reverse.dropWhile isPySpace).reverse

/-- `str.strip()`. -/
def stripString (s : String) : String := String.mk (stripChars s.data)

/-- `re.sub(r'\s+', ' ', text)`: collapse every whitespace run to one space. -/
def collapseWs : List Char → List Char
  | [] => []
  | c :: cs =>
    if isPySpace c then ' ' :: collapseWs (cs.dropWhile isPySpace)
    else c :: collapseWs cs
termination_by l => l.length
decreasing_by
  · simp only [List.length_cons]
    exact Nat.lt_succ_of_le (List.dropWhile_sublist _).length_le
  · simp

/-- `re.sub(r'<[^>]+>', '', text)`: delete each maximal `<...>` tag (one or
more non-`>` characters between the brackets, ended by the first `>`). -/
def removeTags (l : List Char) : List Char :=
  match l with
  | [] => []
  | c :: cs =>
    if c = '<' then
      let p := cs.findIdx (· = '>')
      if p < cs.length then
        if p = 0 then c :: removeTags cs
        else removeTags (cs.drop (p + 1))
      else l
    else c :: removeTags cs
termination_by l.length
decreasing_by
  · simp
  · simp only [List.length_cons, List.length_drop]
    omega
  · simp

/-- The normalisation step of `calculate_text_similarity`
(`clean_text`: strip HTML tags, collapse whitespace, strip, lowercase). -/
def clean_text (s : String) : List Char :=
  (stripChars (collapseWs (removeTags s.data))).map lowerChar

/-- `re.findall(r'\b\w+\b', text)`: the maximal runs of word characters. -/
def wordRuns (l : List Char) : List String :=
  match l with
  | [] => []
  | c :: cs =>
    if isWordChar c then
      String.mk ((c :: cs).takeWhile isWordChar)
        :: wordRuns ((c :: cs).dropWhile isWordChar)
    else wordRuns cs
termination_by l.length
decreasing_by
  · rename_i h
    simp only [List.length_cons, List.dropWhile_cons, h, if_true]
    exact Nat.lt_succ_of_le (List.dropWhile_sublist _).length_le
  · simp

/-- Python `str.split()` (no separator): maximal non-whitespace runs. -/
def pySplit (l : List Char) : List String :=
  match l with
  | [] => []
  | c :: cs =>
    if isPySpace c then pySplit cs
    else
      String.mk ((c :: cs).takeWhile (fun d => !isPySpace d))
        :: pySplit ((c :: cs).dropWhile (fun d => !isPySpace d))
termination_by l.length
decreasing_by
  · simp
  · rename_i h
    have h' : (!isPySpace c) = true := by simp [Bool.not_eq_true] at h; simp [h]
    simp only [List.length_cons, List.dropWhile_cons, h', if_true]
    exact Nat.lt_succ_of_le (List.dropWhile_sublist _).length_le

/-- Python `str.split(sep)` for a one-character separator (as in
`thesis_text.split('\n')` and `point.split('.')`): splits at every occurrence,
keeping empty fragments. -/
def splitOnCharAux (sep : Char) : List Char → List Char → List String
  | [], cur => [String.mk cur.reverse]
  | c :: cs, cur =>
    if c = sep then String.mk cur.reverse :: splitOnCharAux sep cs []
    else splitOnCharAux sep cs (c :: cur)

/-- `s.split(sep)` for a one-character `sep`. -/
def pySplitOn (s : String) (sep : Char) : List String := splitOnCharAux sep s.data []

/-- Python `sub in s` (substring containment): `List.IsInfix` on the character
lists, which is decidable. -/
def strIn (sub s : String) : Prop := sub.data <:+: s.data

instance (sub s : String) : Decidable (strIn sub s) := by
  unfold strIn; infer_instance

/-- Python `str.isalpha()`: non-empty and all alphabetic. -/
def pyIsAlpha (s : String) : Bool := !s.data.isEmpty && s.data.all Char.isAlpha

/-! ## `difflib.SequenceMatcher(None, a, b).ratio()`

Model of the CPython `SequenceMatcher` with `isjunk=None` (as called by
`calculate_text_similarity`).  With `isjunk=None` the junk set `bjunk` is
empty, so the junk-extension loops of `find_longest_match` are no-ops and are
omitted; `autojunk` still removes "popular" elements (appearing more than
`n/100 + 1` times when `len(b) >= 200`) from the position table `b2j`. -/

/-- `b2j[c]`: the (ascending) positions of `c` in `b`, with popular elements
deleted when autojunk applies. -/
def b2j (b : List Char) (c : Char) : List Nat :=
  let occs := (List.range b.length).filter (fun j => b.getD j ' ' == c)
  if 200 ≤ b.length ∧ occs.length > b.length / 100 + 1 then [] else occs

/-- `j2len.get(j, 0)` on the association-list model of the DP row. -/
def j2lenGet (m : List (Nat × Nat)) (j : Nat) : Nat :=
  match m.find? (fun e => e.1 == j) with
  | some e => e.2
  | none => 0

/-- One row of the `find_longest_match` DP: iterate `j` over `b2j[a[i]]`
(`j < blo` is `continue`; `j >= bhi` is `break`, equal to a filter since the
positions are ascending), building the new row and updating the running best
`(besti, bestj, bestsize)` (strict `>` keeps the earliest maximum). -/
def flmRow (blo bhi i : Nat) (j2len : List (Nat × Nat)) (js : List Nat)
    (best : Nat × Nat × Nat) : List (Nat × Nat) × (Nat × Nat × Nat) :=
  js.foldl
    (fun acc j =>
      if blo ≤ j ∧ j < bhi then
        let k := (if j = 0 then 0 else j2lenGet j2len (j - 1)) + 1
        let best' := if k > acc.2.2.2 then (i + 1 - k, j + 1 - k, k) else acc.2
        (acc.1 ++ [(j, k)], best')
      else acc)
    ([], best)

/-- The `for i in range(alo, ahi)` loop of `find_longest_match`. -/
def flmLoop (a b : List Char) (alo ahi blo bhi : Nat) : Nat × Nat × Nat :=
  ((List.range' alo (ahi - alo)).foldl
      (fun st i => flmRow blo bhi i st.1 (b2j b (a.getD i ' ')) st.2)
      ([], (alo, blo, 0))).2

/-- The backward non-junk extension `while` loop (`bjunk` is empty, so
`not isbjunk(...)` is always true). -/
def extendBack (a b : List Char) (alo blo besti bestj bestsize : Nat) : Nat × Nat × Nat :=
  if h : alo < besti ∧ blo < bestj ∧ a.getD (besti - 1) ' ' = b.getD (bestj - 1) ' '
  then extendBack a b alo blo (besti - 1) (bestj - 1) (bestsize + 1)
  else (besti, bestj, bestsize)
termination_by besti
decreasing_by have := h.1; omega

/-- The forward non-junk extension `while` loop. -/
def extendFwd (a b : List Char) (ahi bhi besti bestj bestsize : Nat) : Nat × Nat × Nat :=
  if h : besti + bestsize < ahi ∧ bestj + bestsize < bhi ∧
      a.getD (besti + bestsize) ' ' = b.getD (bestj + bestsize) ' '
  then extendFwd a b ahi bhi besti bestj (bestsize + 1)
  else (besti, bestj, bestsize)
termination_by ahi - bestsize
decreasing_by have := h.1; omega

/-- `SequenceMatcher.find_longest_match(alo, ahi, blo, bhi)`: DP, then the two
non-junk extension loops (the two junk-extension loops are no-ops). -/
def find_longest_match (a b : List Char) (alo ahi blo bhi : Nat) : Nat × Nat × Nat :=
  let m := flmLoop a b alo ahi blo bhi
  let m2 := extendBack a b alo blo m.1 m.2.1 m.2.2
  extendFwd a b ahi bhi m2.1 m2.2.1 m2.2.2

/-- Total size of the matching blocks (`get_matching_blocks` queue recursion;
only the sum of the block sizes matters for `ratio`).  `fuel` bounds the
recursion depth; every call site passes `a.length + b.length + 1`, which always
suffices because each recursive call strictly shrinks `(ahi-alo)+(bhi-blo)`. -/
def matchTotal (a b : List Char) : Nat → Nat → Nat → Nat → Nat → Nat
  | 0, _, _, _, _ => 0
  | fuel + 1, alo, ahi, blo, bhi =>
    let m := find_longest_match a b alo ahi blo bhi
    if m.2.2 = 0 then 0
    else
      (if alo < m.1 ∧ blo < m.2.1 then matchTotal a b fuel alo m.1 blo m.2.1 else 0)
      + m.2.2
      + (if m.1 + m.2.2 < ahi ∧ m.2.1 + m.2.2 < bhi
          then matchTotal a b fuel (m.1 + m.2.2) ahi (m.2.1 + m.2.2) bhi else 0)

/-- `SequenceMatcher(None, a, b).ratio()`: `2*M/(len(a)+len(b))`, or `1.0`
when both inputs are empty. -/
def seqRatio (a b : List Char) : ℚ :=
  let total := a.length + b.length
  if total = 0 then 1
  else 2 * (matchTotal a b (total + 1) 0 a.length 0 b.length : ℚ) / total

/-! ## `calculate_text_similarity` (the Similarity Engine) -/

/-- The word set of a (cleaned) text: `set(re.findall(r'\b\w+\b', t))`. -/
def wordSet (t : List Char) : Finset String := (wordRuns t).toFinset

/-- Guarded Jaccard on sets, exactly as in the source: `0.0` unless both sets
are non-empty, and (redundantly) `0.0` if the union is empty. -/
def jaccardOf (A B : Finset String) : ℚ :=
  if A ≠ ∅ ∧ B ≠ ∅ then
    if A ∪ B ≠ ∅ then ((A ∩ B).card : ℚ) / ((A ∪ B).card : ℚ) else 0
  else 0

/-- `get_ngrams(text, n)` as a set: contiguous `n`-word shingles of
`text.split()`, joined by single spaces. -/
def getNgrams (t : List Char) (n : Nat) : Finset String :=
  let ws := pySplit t
  ((List.range (ws.length + 1 - n)).map
      (fun i => String.intercalate " " ((ws.drop i).take n))).toFinset

/-- Key set of `get_keyword_density`: words of length > 3 (only the keys of
the frequency map are used downstream). -/
def keywordSet (t : List Char) : Finset String :=
  ((wordRuns t).filter (fun w => w.length > 3)).toFinset

/-- Keyword-density overlap: `len(common)/len(total)` guarded only on the
union being non-empty. -/
def keywordSim (K1 K2 : Finset String) : ℚ :=
  if K1 ∪ K2 ≠ ∅ then ((K1 ∩ K2).card : ℚ) / ((K1 ∪ K2).card : ℚ) else 0

/-- Sub-metric 1 of `calculate_text_similarity`: character sequence ratio. -/
def sequencePart (a b : String) : ℚ := seqRatio (clean_text a) (clean_text b)

/-- Sub-metric 2: word Jaccard. -/
def jaccardPart (a b : String) : ℚ :=
  jaccardOf (wordSet (clean_text a)) (wordSet (clean_text b))

/-- Sub-metric 3: trigram Jaccard. -/
def ngramPart (a b : String) : ℚ :=
  jaccardOf (getNgrams (clean_text a) 3) (getNgrams (clean_text b) 3)

/-- Sub-metric 4: keyword-density overlap. -/
def keywordPart (a b : String) : ℚ :=
  keywordSim (keywordSet (clean_text a)) (keywordSet (clean_text b))

/-- `calculate_text_similarity(text1, text2)`: weighted blend of the four
sub-metrics, clamped to [0,1].  (The `except` fallback of the source is dead
code here: the model is total.) -/
def calculate_text_similarity (a b : String) : ℚ :=
  min (max (sequencePart a b * (3/10) + jaccardPart a b * (3/10)
    + ngramPart a b * (2/10) + keywordPart a b * (2/10)) 0) 1

/-! ## `extract_keywords_from_text` (Keyword Extractor) -/

/-- The stop-word set of `extract_keywords_from_text`. -/
def stopWords : List String :=
  ["the", "a", "an", "and", "or", "but", "in", "on", "at", "to", "for", "of",
   "with", "by", "is", "are", "was", "were", "be", "been", "have", "has", "had",
   "do", "does", "did", "will", "would", "could", "should", "may", "might",
   "can", "this", "that", "these", "those", "i", "you", "he", "she", "it",
   "we", "they", "me", "him", "her", "us", "them"]

/-- First-occurrence deduplication: the key order of a Python dict built by
`word_freq[word] = word_freq.get(word, 0) + 1` over a word list. -/
def firstOccurAux (seen : List String) : List String → List String
  | [] => []
  | x :: xs =>
    if seen.contains x then firstOccurAux seen xs
    else x :: firstOccurAux (x :: seen) xs

/-- Keys of the frequency dict, in insertion order. -/
def firstOccur (l : List String) : List String := firstOccurAux [] l

/-- `extract_keywords_from_text(text, max_keywords)`: frequency-ranked keywords
over `text.lower().split()`, keeping alphabetic words of length > 3 that are
not stop words; `sorted(..., key=count, reverse=True)` is the stable descending
sort, ties broken by dict (= first-occurrence) order. -/
def extract_keywords_from_text (text : String) (max_keywords : Nat) : List String :=
  let words := pySplit (text.data.map lowerChar)
  let kept := words.filter (fun w => w.length > 3 && !(stopWords.contains w) && pyIsAlpha w)
  let pairs := (firstOccur kept).map (fun w => (w, kept.count w))
  ((sortDesc (fun pr => (pr.2 : ℚ)) pairs).take max_keywords).map Prod.fst

/-! ## `parse_thesis` (Thesis Parser)

The source branches on `openai.api_key`; claims depend on both sides, so the
branch is an explicit `apiKey : Bool` parameter.  (The `except` fallback is
dead code in the pure model.) -/

/-- Section-header markers skipped by the pattern-based (API-key) branch. -/
def skipPatterns : List String :=
  ["abstract:", "introduction:", "conclusion:", "references:", "bibliography:",
   "chapter", "section"]

/-- `any(pattern in line.lower() for pattern in skip_patterns)`. -/
def containsSkipPattern (line : String) : Prop :=
  ∃ p ∈ skipPatterns, strIn p (lowerStr line)

instance (line : String) : Decidable (containsSkipPattern line) := by
  unfold containsSkipPattern; infer_instance

/-- `parse_thesis(thesis_text)`.  Both branches keep stripped lines that are
non-empty with length > 10; the `apiKey = true` branch additionally skips
section-header lines and, when fewer than 3 points result, re-splits points
longer than 200 characters on `'.'`, keeping stripped fragments of length
> 20.  Returns `(points, keywords)`. -/
def parse_thesis (apiKey : Bool) (thesis_text : String) : List String × List String :=
  if apiKey = false then
    let points := (pySplitOn thesis_text '\n').foldl
      (fun acc line =>
        let l := stripString line
        if l ≠ "" ∧ l.length > 10 then acc ++ [l] else acc) []
    (points, extract_keywords_from_text thesis_text 8)
  else
    let points := (pySplitOn thesis_text '\n').foldl
      (fun acc line =>
        let l := stripString line
        if (l ≠ "" ∧ l.length > 10) ∧ ¬ containsSkipPattern l then acc ++ [l] else acc) []
    let points2 :=
      if points.length < 3 then
        points.foldl
          (fun acc p =>
            if p.length > 200 then
              acc ++ (pySplitOn p '.').foldl
                (fun acc2 s =>
                  let st := stripString s
                  if st.length > 20 then acc2 ++ [st] else acc2) []
            else acc ++ [p]) []
      else points
    (points2, extract_keywords_from_text thesis_text 8)

/-! ## `embed_text` (Embedding Provider, offline hash variant)

Models the branch taken when no OpenAI key is configured.  `hashlib.md5` is an
external library call; it is modelled as a deterministic 128-bit digest of the
UTF-8 bytes, hex-encoded to exactly 32 lowercase hex characters — the only
facts the embedding code relies on. -/

/-- Model of the 128-bit MD5 digest value: a deterministic function of the
text into `[0, 2^128)`. -/
def md5digest (t : String) : Nat :=
  t.data.foldl (fun h c => (h * 16777619 + c.toNat + 1) % 2 ^ 128) 5381

/-- Lowercase hex digit for a value in `[0, 16)`. -/
def hexDigitChar (n : Nat) : Char :=
  if n < 10 then Char.ofNat (48 + n) else Char.ofNat (87 + n)

/-- `hashlib.md5(text.encode()).hexdigest()`: 32 lowercase hex characters,
most significant first. -/
def md5hex (t : String) : String :=
  String.mk ((List.range 32).map (fun k => hexDigitChar (md5digest t / 16 ^ (31 - k) % 16)))

/-- Value of a hex digit character (`int(c, 16)` on lowercase hex). -/
def hexVal (c : Char) : Nat :=
  if c.isDigit then c.toNat - 48
  else if 'a' ≤ c ∧ c ≤ 'f' then c.toNat - 87
  else 0

/-- `int(s, 16)` on a lowercase hex string. -/
def hexListVal : List Char → Nat
  | [] => 0
  | c :: cs => hexVal c * 16 ^ cs.length + hexListVal cs

/-- `embed_text(text)`, offline branch: for each dimension `i < 1536`, slice 4
hex characters of the digest starting at `(i*4) % len(hexdigest)` and divide
their value by `100000.0`; `0.0` if the window would not fit. -/
def embed_text (text : String) : List ℚ :=
  let hex := md5hex text
  (List.range 1536).map (fun i =>
    let start := (i * 4) % hex.length
    if start + 4 ≤ hex.length
    then ((hexListVal ((hex.data.drop start).take 4) : ℚ) / 100000)
    else 0)

/-- `FallbackMatcher.create_embedding(text)` (`fallback_matcher.py`): the same
hash-window construction as the offline `embed_text`. -/
def create_embedding (text : String) : List ℚ :=
  let hash_hex := md5hex text
  (List.range 1536).map (fun i =>
    let start := (i * 4) % hash_hex.length
    if start + 4 ≤ hash_hex.length
    then ((hexListVal ((hash_hex.data.drop start).take 4) : ℚ) / 100000)
    else 0)

/-! ## `analyze_thesis_alignment` (Alignment Analyzer, offline/pattern-based) -/

/-- Result record of `analyze_thesis_alignment` (the `analysis_type` and
`detailed_scores` diagnostic fields are not modelled; no claim consults
them). -/
structure AlignmentResult where
  overall_score : ℚ
  matched_points : List String
  alignment_reasons : List String
  deriving Repr, DecidableEq

/-- `sum(1 for kw in pats if kw in hay)` — the substring-match counting loops
of `analyze_thesis_alignment`. -/
def countSubstrMatches (pats : List String) (hay : String) : Nat :=
  pats.foldl (fun n kw => if strIn kw hay then n + 1 else n) 0

/-- `f"{x:.2f}"` for the human-readable reason strings (decimal rendering of a
non-negative rational; no theorem depends on it). -/
def fmt2 (q : ℚ) : String :=
  let n := (q * 100 + 1/2).floor.toNat
  toString (n / 100) ++ "." ++ (if n % 100 < 10 then "0" else "") ++ toString (n % 100)

/-- The fixed domain-keyword clusters of `analyze_thesis_alignment`. -/
def domainClusters : List (String × List String) :=
  [("renewable", ["solar", "wind", "battery", "energy", "sustainable", "green"]),
   ("tech", ["startup", "funding", "venture", "capital", "innovation", "technology"]),
   ("business", ["market", "company", "investment", "growth", "revenue", "profit"])]

/-- Method 1 of the analyzer: thesis-keyword substring match score times its
0.4 weight (0 when there are no thesis keywords). -/
def keywordScorePart (article_text : String) (thesis_keywords : List String) : ℚ :=
  if thesis_keywords ≠ [] then
    ((countSubstrMatches (thesis_keywords.map lowerStr) (lowerStr article_text) : ℚ)
      / thesis_keywords.length) * (4/10)
  else 0

/-- The per-point Similarity Engine scores of Method 2. -/
def pointScores (thesis_points : List String) (article_text : String) : List ℚ :=
  thesis_points.map (fun p => calculate_text_similarity p article_text)

/-- What Method 2 actually adds to the alignment score: `0.3 * s` for each
point whose score `s` is strictly above `0.3`. -/
def pointContribution (thesis_points : List String) (article_text : String) : ℚ :=
  (((pointScores thesis_points article_text).filter (fun s => s > 3/10)).map
    (fun s => s * (3/10))).sum

/-- The points recorded as matched by Method 2 (score strictly above `0.3`). -/
def matchedPointsOf (thesis_points : List String) (article_text : String) : List String :=
  thesis_points.filter (fun p => calculate_text_similarity p article_text > 3/10)

/-- Method 3: whole-content similarity times its 0.3 weight. -/
def contentPart (article_text : String) (thesis_points thesis_keywords : List String) : ℚ :=
  calculate_text_similarity
    (String.intercalate " " (thesis_points ++ thesis_keywords)) article_text * (3/10)

/-- Method 4: domain-cluster bonus. -/
def domainPart (article_text : String) : ℚ :=
  domainClusters.foldl
    (fun acc cl =>
      if cl.2 ≠ [] then
        acc + ((countSubstrMatches cl.2 (lowerStr article_text) : ℚ) / cl.2.length) * (1/10)
      else acc) 0

/-- `analyze_thesis_alignment(article_text, thesis_points, thesis_keywords)`.
The point loop (Method 2) appends each score, records points scoring > 0.3 as
matched, and adds `score * 0.3` for those points only; the final score is
clamped to [0,1].  (The `except` fallback returning a neutral 0.5 is dead
code: the model is total.) -/
def analyze_thesis_alignment (article_text : String)
    (thesis_points thesis_keywords : List String) : AlignmentResult :=
  let keyword_matches := countSubstrMatches (thesis_keywords.map lowerStr) (lowerStr article_text)
  let keyword_score : ℚ :=
    if thesis_keywords ≠ [] then (keyword_matches : ℚ) / thesis_keywords.length else 0
  let score1 : ℚ := keywordScorePart article_text thesis_keywords
  let reasons :=
    if thesis_keywords ≠ [] then
      ["Keyword match: " ++ toString keyword_matches ++ "/"
        ++ toString thesis_keywords.length ++ " (" ++ fmt2 keyword_score ++ ")"]
    else []
  let pml := thesis_points.foldl
    (fun acc p =>
      let s := calculate_text_similarity p article_text
      (acc.1 ++ [s],
       (if s > 3/10 then acc.2.1 ++ [p] else acc.2.1),
       (if s > 3/10 then acc.2.2 + s * (3/10) else acc.2.2)))
    (([] : List ℚ), ([] : List String), (0 : ℚ))
  let score2 := score1 + pml.2.2
  let score3 := score2 + contentPart article_text thesis_points thesis_keywords
  let alignment_score := score3 + domainPart article_text
  let final_score := min (max alignment_score 0) 1
  ⟨final_score, pml.2.1, reasons⟩

/-! ## `vector_store.py`: state, `add_thesis`, `find_relevant_articles` -/

/-- An article record as consumed by `find_relevant_articles`: `url`,
`summary`, `keywords` and `embedding` are accessed directly (required keys),
the rest through `.get(...)` with defaults (optional). -/
structure Article where
  url : String
  title : Option String
  summary : String
  full_content : Option String
  keywords : List String
  companies : List String
  embedding : List ℚ
  deriving Repr, DecidableEq

/-- A match object as built by `find_relevant_articles` (the `detailed_scores`
and `analysis` diagnostic dictionaries are not modelled as record fields; the
individual sub-scores are exposed as the named functions below, which is what
the claims consult). -/
structure MatchResult where
  url : String
  title : String
  summary : String
  full_content : String
  keywords : List String
  companies : List String
  matched_thesis_points : List String
  relevance_score : ℚ
  match_reason : String
  deriving Repr, DecidableEq

/-- The module-level mutable state of `vector_store.py`: `thesis_points`,
`thesis_keywords`, `thesis_embeddings`.  The FAISS `index` holds exactly the
vectors of `thesis_embeddings` (they are reset and appended in lockstep by
`add_thesis`), so it is represented by `indexVectors`. -/
structure VSState where
  thesis_points : List String
  thesis_keywords : List String
  thesis_embeddings : List (String × List ℚ)
  deriving Repr, DecidableEq

/-- Module-initial state: empty lists, empty `faiss.IndexFlatL2`. -/
def initState : VSState := ⟨[], [], []⟩

/-- The contents of the FAISS index. -/
def indexVectors (s : VSState) : List (List ℚ) := s.thesis_embeddings.map Prod.snd

/-- `add_thesis(thesis_text)`: parse, overwrite `thesis_points` and
`thesis_keywords`, clear `thesis_embeddings`, `index.reset()`, then embed and
add every point whose `.strip()` is non-empty (the prior state `s` is fully
discarded).  `embed_text` is total in the offline model, so the per-point
`except` branch is dead. -/
def add_thesis (apiKey : Bool) (s : VSState) (thesis_text : String) : VSState :=
  let pk := parse_thesis apiKey thesis_text
  { thesis_points := pk.1
    thesis_keywords := pk.2
    thesis_embeddings :=
      (pk.1.filter (fun p => stripString p != "")).map (fun p => (p, embed_text p)) }

/-- Squared L2 distance, as returned by `faiss.IndexFlatL2.search`. -/
def sqL2 (q v : List ℚ) : ℚ := ((q.zip v).map (fun pr => (pr.1 - pr.2) ^ 2)).sum

/-- Ascending insertion by `(distance, index)`. -/
def insertAscPair (x : ℚ × Nat) : List (ℚ × Nat) → List (ℚ × Nat)
  | [] => [x]
  | y :: ys =>
    if x.1 < y.1 ∨ (x.1 = y.1 ∧ x.2 ≤ y.2) then x :: y :: ys
    else y :: insertAscPair x ys

/-- Sort `(distance, index)` pairs ascending. -/
def sortAscPairs : List (ℚ × Nat) → List (ℚ × Nat)
  | [] => []
  | x :: xs => insertAscPair x (sortAscPairs xs)

/-- `index.search(query, k)` on a flat L2 index: the `k` nearest stored
vectors as `(squared distance, position)` pairs, nearest first. -/
def faissSearch (vecs : List (List ℚ)) (q : List ℚ) (k : Nat) : List (ℚ × Nat) :=
  (sortAscPairs ((List.range vecs.length).map (fun i => (sqL2 q (vecs.getD i []), i)))).take k

/-- Strategy 1's search call: `index.search(article['embedding'], min(3, len(thesis_embeddings)))`. -/
def vectorResults (s : VSState) (a : Article) : List (ℚ × Nat) :=
  faissSearch (indexVectors s) a.embedding (min 3 s.thesis_embeddings.length)

/-- The results passing the loop's `idx < len(thesis_embeddings)` guard. -/
def validResults (s : VSState) (a : Article) : List (ℚ × Nat) :=
  (vectorResults s a).filter (fun r => r.2 < s.thesis_embeddings.length)

/-- The per-result similarities `1.0 / (1.0 + distance)`. -/
def vectorSims (s : VSState) (a : Article) : List ℚ :=
  (validResults s a).map (fun r => 1 / (1 + r.1))

/-- `best_vector_score` (also `detailed_scores["vector_similarity"]`): the
maximum of the per-result similarities, starting from `0.0`. -/
def vector_similarity (s : VSState) (a : Article) : ℚ := listMax0 (vectorSims s a)

/-- The thesis-point texts collected by the vector loop
(`thesis_embeddings[idx][0]`). -/
def vectorMatchedPoints (s : VSState) (a : Article) : List String :=
  (validResults s a).map (fun r => (s.thesis_embeddings.getD r.2 ("", [])).1)

/-- The shared-keyword count of Strategy 2 (lowercased set intersection). -/
def keywordOverlapCount (s : VSState) (a : Article) : Nat :=
  ((a.keywords.map lowerStr).toFinset ∩ (s.thesis_keywords.map lowerStr).toFinset).card

/-- Strategy 2's `keyword_score` (also `detailed_scores["keyword_overlap"]`,
which is `0.0` when either keyword list is empty):
`overlap / max(len(thesis_keywords_set), 1)`. -/
def keyword_overlap (s : VSState) (a : Article) : ℚ :=
  if s.thesis_keywords ≠ [] ∧ a.keywords ≠ [] then
    (keywordOverlapCount s a : ℚ) / (max (s.thesis_keywords.map lowerStr).toFinset.card 1)
  else 0

/-- Strategy 3's per-point scores over the first 3 thesis points. -/
def textSims (s : VSState) (a : Article) : List ℚ :=
  (s.thesis_points.take 3).map (fun p => calculate_text_similarity a.summary p)

/-- `detailed_scores["text_similarity"]`: max of the text scores, `0.0` when
there are none. -/
def text_similarity (s : VSState) (a : Article) : ℚ := listMax0 (textSims s a)

/-- Strategy 4's content-quality heuristic `min(len(summary)/500, 1.0)`. -/
def content_quality (a : Article) : ℚ := min ((a.summary.length : ℚ) / 500) 1

/-- `article.get('full_content', article.get('summary', ''))`. -/
def alignInput (a : Article) : String := a.full_content.getD a.summary

/-- Strategy 5 runs only `if thesis_points and thesis_keywords`. -/
def alignCond (s : VSState) : Prop := s.thesis_points ≠ [] ∧ s.thesis_keywords ≠ []

instance (s : VSState) : Decidable (alignCond s) := by
  unfold alignCond; infer_instance

/-- Strategy 5's `alignment_score` (`0` when the strategy is skipped). -/
def thesis_alignment (s : VSState) (a : Article) : ℚ :=
  if alignCond s then
    (analyze_thesis_alignment (alignInput a) s.thesis_points s.thesis_keywords).overall_score
  else 0

/-- Per-article scoring of `find_relevant_articles` (the body of the main
loop): `match_scores` collects `sim * 0.4` for every search result, the
keyword score times `0.3` (when both keyword lists are non-empty), `sim * 0.2`
for each of the first 3 thesis points, the content score times `0.1`, and the
alignment score times `0.3` (when strategy 5 runs); `relevance_score` is their
sum.  (`detailed_scores`/`analysis` diagnostics are omitted.) -/
def scoreArticle (s : VSState) (a : Article) : MatchResult :=
  let vecContribs := (vectorSims s a).map (fun x => x * (4/10))
  let kwContribs :=
    if s.thesis_keywords ≠ [] ∧ a.keywords ≠ [] then [keyword_overlap s a * (3/10)] else []
  let textContribs := (textSims s a).map (fun x => x * (2/10))
  let contentContrib := [content_quality a * (1/10)]
  let alignContribs := if alignCond s then [thesis_alignment s a * (3/10)] else []
  let match_scores := vecContribs ++ kwContribs ++ textContribs ++ contentContrib ++ alignContribs
  let align :=
    if alignCond s then
      some (analyze_thesis_alignment (alignInput a) s.thesis_points s.thesis_keywords)
    else none
  let matched :=
    match align with
    | some r => if r.matched_points ≠ [] then r.matched_points else vectorMatchedPoints s a
    | none => vectorMatchedPoints s a
  let reasons :=
    (if vector_similarity s a > 0 then
      ["Vector similarity: " ++ fmt2 (vector_similarity s a)] else [])
    ++ (if s.thesis_keywords ≠ [] ∧ a.keywords ≠ [] ∧ 0 < keywordOverlapCount s a then
      ["Keyword overlap: " ++ fmt2 (keyword_overlap s a) ++ " ("
        ++ toString (keywordOverlapCount s a) ++ " shared)"] else [])
    ++ (if text_similarity s a > 0 then
      ["Text similarity: " ++ fmt2 (text_similarity s a)] else [])
    ++ (if content_quality a > 3/10 then
      ["Content quality: " ++ fmt2 (content_quality a)] else [])
    ++ (match align with | some r => r.alignment_reasons | none => [])
  { url := a.url
    title := a.title.getD ("Content from " ++ a.url)
    summary := a.summary
    full_content := a.full_content.getD "Full content not available"
    keywords := a.keywords
    companies := a.companies
    matched_thesis_points := matched.take 3
    relevance_score := listSumQ match_scores
    match_reason := String.intercalate " | " (reasons.take 3) }

/-- The default match object of the `len(thesis_embeddings) == 0` branch. -/
def defaultMatch (a : Article) : MatchResult :=
  { url := a.url
    title := a.title.getD ("Content from " ++ a.url)
    summary := a.summary
    full_content := a.full_content.getD "Full content not available"
    keywords := a.keywords
    companies := a.companies
    matched_thesis_points := ["No thesis uploaded yet"]
    relevance_score := 1
    match_reason := "No thesis available for comparison" }

/-- The unsorted match list (one entry per article, in input order). -/
def matchList (s : VSState) (articles : List Article) : List MatchResult :=
  if s.thesis_embeddings.length = 0 then articles.map defaultMatch
  else articles.map (scoreArticle s)

/-- `find_relevant_articles(articles)`: both branches end with
`sorted(matches, key=relevance_score, reverse=True)` (stable descending). -/
def find_relevant_articles (s : VSState) (articles : List Article) : List MatchResult :=
  sortDesc (fun m => m.relevance_score) (matchList s articles)

/-! ## `parse_thesis`, declaratively -/

/-- The lines kept by the first pass of the pattern-based branch: stripped,
non-empty, longer than 10 characters, no section-header marker. -/
def keptLines (text : String) : List String :=
  ((pySplitOn text '\n').map stripString).filter
    (fun l => decide ((l ≠ "" ∧ l.length > 10) ∧ ¬ containsSkipPattern l))

/-- Re-split of a single point: points longer than 200 characters become their
stripped `'.'`-fragments of length > 20; shorter points stay. -/
def resplitPoint (p : String) : List String :=
  if p.length > 200 then
    ((pySplitOn p '.').map stripString).filter (fun s => decide (s.length > 20))
  else [p]

/-- The Thesis-Parser point policy stated declaratively (the form claim C9
describes): header-filtered stripped lines, re-split when fewer than 3. -/
def parse_points_spec (text : String) : List String :=
  if (keptLines text).length < 3 then (keptLines text).flatMap resplitPoint
  else keptLines text

/-! ## Concrete instances used by counterexamples and witnesses -/

/-- A two-line thesis for the C1 counterexample state. -/
def thesisC1 : String := "solar panels are great\nbattery storage is cheap"

/-- The state after submitting `thesisC1` offline: two points, two indexed
vectors. -/
def stateC1 : VSState := add_thesis false initState thesisC1

/-- A concrete article (its embedding computed from its summary, as at
ingestion). -/
def articleC1 : Article :=
  { url := "http://example.com/a"
    title := some "Solar storage news"
    summary := "solar storage news today"
    full_content := none
    keywords := ["solar"]
    companies := []
    embedding := embed_text "solar storage news today" }

/-- A minimal article for default-branch witnesses (its embedding is unused on
that branch). -/
def articleW : Article :=
  { url := "http://example.com/w"
    title := none
    summary := "a short summary"
    full_content := none
    keywords := []
    companies := []
    embedding := [] }

/-- The relevance formula exactly as claim C1 states it: a weighted sum of the
five named sub-scores, with the *maximum* vector and text similarities. -/
def claimedRelevanceC1 (s : VSState) (a : Article) : ℚ :=
  vector_similarity s a * (4/10) + keyword_overlap s a * (3/10)
    + text_similarity s a * (2/10) + content_quality a * (1/10)
    + thesis_alignment s a * (3/10)

/-- The point-contribution formula exactly as claim C2 states it: `0.3` times
the arithmetic mean of all per-point scores. -/
def claimedPointContributionC2 (pts : List String) (article_text : String) : ℚ :=
  (3/10) * ((pointScores pts article_text).sum / (pointScores pts article_text).length)

/-- Thesis point for the C2 counterexample. -/
def pointC2 : String := "alpha beta gamma delta"

/-- Article text for the C2 counterexample (its similarity to `pointC2` is
strictly between 0 and 0.3). -/
def articleTextC2 : String := "omega sigma tau epsilon"

/-! ## Theorems -/

theorem listSumQ_eq_sum (l : List ℚ) : listSumQ l = l.sum := by
  have h : ∀ (l : List ℚ) (a : ℚ), l.foldl (· + ·) a = a + l.sum := by
    intro l
    induction l with
    | nil => intro a; simp [List.sum]
    | cons x xs ih => intro a; simp only [List.foldl, List.sum_cons, ih]; ring
  simpa using h l 0

theorem listMax0_le_sum {l : List ℚ} (h : ∀ x ∈ l, 0 ≤ x) : listMax0 l ≤ l.sum := by
  have key : ∀ (l : List ℚ) (a : ℚ), (∀ x ∈ l, 0 ≤ x) → 0 ≤ a →
      l.foldl max a ≤ a + l.sum := by
    intro l
    induction l with
    | nil => intro a _ _; simp
    | cons x xs ih =>
      intro a hx ha
      have hx0 : 0 ≤ x := hx x (by simp)
      have hs0 : 0 ≤ xs.sum := List.sum_nonneg (fun y hy => hx y (by simp [hy]))
      have := ih (max a x) (fun y hy => hx y (by simp [hy])) (le_max_of_le_left ha)
      calc (x :: xs).foldl max a = xs.foldl max (max a x) := rfl
        _ ≤ max a x + xs.sum := this
        _ ≤ a + (x + xs.sum) := by
            rcases max_cases a x with ⟨h1, _⟩ | ⟨h1, _⟩ <;> rw [h1] <;> nlinarith
        _ = a + (x :: xs).sum := by simp
  simpa [listMax0] using key l 0 h le_rfl

theorem listMax0_lt_sum {l : List ℚ} (hlen : 2 ≤ l.length) (h : ∀ x ∈ l, 0 < x) :
    listMax0 l < l.sum := by
  match l, hlen with
  | x :: y :: t, _ =>
    have hx : 0 < x := h x (by simp)
    have hyt : ∀ z ∈ y :: t, 0 ≤ z := fun z hz => le_of_lt (h z (by simp_all))
    have hyt_sum : 0 < (y :: t).sum := by
      have hy : 0 < y := h y (by simp)
      have ht : 0 ≤ t.sum := List.sum_nonneg (fun z hz => le_of_lt (h z (by simp [hz])))
      simp only [List.sum_cons]; linarith
    have hmax_tail : listMax0 (y :: t) ≤ (y :: t).sum := listMax0_le_sum hyt
    have swap : ∀ (l : List ℚ) (a b : ℚ), l.foldl max (max a b) = max a (l.foldl max b) := by
      intro l
      induction l with
      | nil => intro a b; simp
      | cons c cs ih =>
        intro a b
        simp only [List.foldl]
        rw [show max (max a b) c = max a (max b c) by rw [max_assoc], ih]
    have hstep : listMax0 (x :: y :: t) = max x (listMax0 (y :: t)) := by
      calc listMax0 (x :: y :: t) = (y :: t).foldl max (max 0 x) := rfl
        _ = (y :: t).foldl max (max x 0) := by rw [max_comm]
        _ = max x ((y :: t).foldl max 0) := swap _ x 0
        _ = max x (listMax0 (y :: t)) := rfl
    rw [hstep, List.sum_cons]
    rcases max_cases x (listMax0 (y :: t)) with ⟨h1, _⟩ | ⟨h1, _⟩ <;> rw [h1]
    · linarith
    · calc listMax0 (y :: t) ≤ (y :: t).sum := hmax_tail
        _ < x + (y :: t).sum := by linarith

/-- Imperative `for x in l: if p x: acc.append(f x)` as a fold, in declarative form. -/
theorem foldl_append_if_filter_map {α β : Type} (p : α → Prop) [DecidablePred p] (f : α → β) :
    ∀ (l : List α) (acc : List β),
      l.foldl (fun a x => if p x then a ++ [f x] else a) acc
        = acc ++ (l.filter (fun x => decide (p x))).map f := by
  intro l
  induction l with
  | nil => intro acc; simp
  | cons x xs ih =>
    intro acc
    by_cases hp : p x <;> simp [List.foldl, hp, ih, List.filter_cons]

/-- Imperative `for x in l: acc.extend(g x)` as a fold, in declarative form. -/
theorem foldl_append_flatMap {α β : Type} (g : α → List β) :
    ∀ (l : List α) (acc : List β),
      l.foldl (fun a x => a ++ g x) acc = acc ++ l.flatMap g := by
  intro l
  induction l with
  | nil => intro acc; simp
  | cons x xs ih => intro acc; simp [List.foldl, ih]

theorem insertDesc_perm {α : Type} (key : α → ℚ) (x : α) :
    ∀ l : List α, Perm (insertDesc key x l) (x :: l) := by
  intro l
  induction l with
  | nil => simp [insertDesc]
  | cons y ys ih =>
    by_cases h : key y ≤ key x
    · simp [insertDesc, h]
    · rw [insertDesc, if_neg h]
      exact (ih.cons y).trans (List.Perm.swap x y ys)

theorem sortDesc_perm {α : Type} (key : α → ℚ) : ∀ l : List α, Perm (sortDesc key l) l := by
  intro l
  induction l with
  | nil => simp [sortDesc]
  | cons x xs ih => exact (insertDesc_perm key x _).trans (ih.cons x)

theorem mem_sortDesc {α : Type} (key : α → ℚ) {x : α} {l : List α} : x ∈ sortDesc key l ↔ x ∈ l :=
  (sortDesc_perm key l).mem_iff

theorem insertDesc_sorted {α : Type} (key : α → ℚ) (x : α) {l : List α}
    (h : l.Pairwise (fun a b => key b ≤ key a)) :
    (insertDesc key x l).Pairwise (fun a b => key b ≤ key a) := by
  induction l with
  | nil => simp [insertDesc]
  | cons y ys ih =>
    rcases List.pairwise_cons.mp h with ⟨hy, hys⟩
    by_cases hxy : key y ≤ key x
    · rw [insertDesc, if_pos hxy]
      refine List.pairwise_cons.mpr ⟨?_, h⟩
      intro b hb
      rcases List.mem_cons.mp hb with hb | hb
      · subst hb; exact hxy
      · exact le_trans (hy b hb) hxy
    · rw [insertDesc, if_neg hxy]
      refine List.pairwise_cons.mpr ⟨?_, ih hys⟩
      intro b hb
      have hb' := (insertDesc_perm key x ys).mem_iff.mp hb
      rcases List.mem_cons.mp hb' with hb' | hb'
      · subst hb'; exact le_of_lt (lt_of_not_le hxy)
      · exact hy b hb'

theorem sortDesc_sorted {α : Type} (key : α → ℚ) :
    ∀ l : List α, (sortDesc key l).Pairwise (fun a b => key b ≤ key a) := by
  intro l
  induction l with
  | nil => simp [sortDesc]
  | cons x xs ih => exact insertDesc_sorted key x ih

theorem insertDesc_filter_key_eq {α : Type} (key : α → ℚ) (x : α) (c : ℚ) :
    ∀ l : List α, (insertDesc key x l).filter (fun z => key z = c)
      = (x :: l).filter (fun z => key z = c) := by
  intro l
  induction l with
  | nil => simp [insertDesc]
  | cons y ys ih =>
    by_cases hxy : key y ≤ key x
    · simp [insertDesc, hxy]
    · have hyx : key x < key y := lt_of_not_le hxy
      rw [insertDesc, if_neg hxy]
      by_cases hx : key x = c
      · have hy : ¬ (key y = c) := by intro hy; rw [hx, ← hy] at hyx; exact lt_irrefl _ hyx
        simp [List.filter_cons, hx, hy, ih]
      · simp [List.filter_cons, hx, ih]

/-- Stability: for every key value `c`, the elements of key `c` appear in the
sorted output in exactly their input order. -/
theorem sortDesc_filter_key_eq {α : Type} (key : α → ℚ) (c : ℚ) :
    ∀ l : List α, (sortDesc key l).filter (fun z => key z = c)
      = l.filter (fun z => key z = c) := by
  intro l
  induction l with
  | nil => simp [sortDesc]
  | cons x xs ih =>
    rw [sortDesc, insertDesc_filter_key_eq]
    simp only [List.filter_cons, ih]

/-! ### Strip is idempotent (needed for the vector-store reset invariant) -/

theorem dropWhile_idem (p : Char → Bool) :
    ∀ l : List Char, (l.dropWhile p).dropWhile p = l.dropWhile p := by
  intro l
  induction l with
  | nil => simp
  | cons c cs ih =>
    by_cases h : p c
    · simp [List.dropWhile_cons, h, ih]
    · simp [List.dropWhile_cons, h]

theorem dropWhile_head_not (p : Char → Bool) (l : List Char) :
    ∀ c cs, l.dropWhile p = c :: cs → p c = false := by
  induction l with
  | nil => intro c cs h; simp at h
  | cons d ds ih =>
    intro c cs h
    by_cases hd : p d
    · rw [List.dropWhile_cons, if_pos hd] at h
      exact ih c cs h
    · rw [List.dropWhile_cons, if_neg hd] at h
      cases h
      simpa using hd

theorem dropWhile_eq_self_of_prefix (p : Char → Bool) {l m : List Char}
    (hpre : l.IsPrefix m) (hm : m.dropWhile p = m) : l.dropWhile p = l := by
  cases l with
  | nil => simp
  | cons c cs =>
    rcases hpre with ⟨t, ht⟩
    subst ht
    rw [List.cons_append] at hm
    have hc : p c = false := by
      by_contra hc
      have hc' : p c = true := by simpa using hc
      rw [List.dropWhile_cons, if_pos hc'] at hm
      have hlen := congrArg List.length hm
      have hle := (List.dropWhile_sublist (l := cs ++ t) p).length_le
      simp only [List.length_cons] at hlen
      omega
    simp [List.dropWhile_cons, hc]

theorem stripChars_dropWhile (l : List Char) :
    (stripChars l).dropWhile isPySpace = stripChars l := by
  have h1 : (l.dropWhile isPySpace).dropWhile isPySpace = l.dropWhile isPySpace :=
    dropWhile_idem _ l
  have hsuf : ((l.dropWhile isPySpace).reverse.dropWhile isPySpace).IsSuffix
      (l.dropWhile isPySpace).reverse := List.dropWhile_suffix _
  have hpre : (stripChars l).IsPrefix (l.dropWhile isPySpace) := by
    have := hsuf.reverse
    simpa [stripChars] using this
  exact dropWhile_eq_self_of_prefix _ hpre h1

theorem stripChars_idem (l : List Char) : stripChars (stripChars l) = stripChars l := by
  have h1 : (stripChars l).dropWhile isPySpace = stripChars l := stripChars_dropWhile l
  show (((stripChars l).dropWhile isPySpace).reverse.dropWhile isPySpace).reverse = stripChars l
  rw [h1]
  show ((((l.dropWhile isPySpace).reverse.dropWhile isPySpace).reverse).reverse.dropWhile
      isPySpace).reverse = stripChars l
  rw [List.reverse_reverse, dropWhile_idem]
  rfl

theorem stripString_idem (s : String) : stripString (stripString s) = stripString s := by
  simp [stripString, stripChars_idem]

theorem calculate_text_similarity_nonneg (a b : String) :
    0 ≤ calculate_text_similarity a b := by
  unfold calculate_text_similarity
  exact le_min (le_max_right _ 0) zero_le_one

theorem calculate_text_similarity_le_one (a b : String) :
    calculate_text_similarity a b ≤ 1 :=
  min_le_right _ 1

theorem jaccardOf_comm (A B : Finset String) : jaccardOf A B = jaccardOf B A := by
  unfold jaccardOf
  rw [Finset.inter_comm, Finset.union_comm]
  by_cases h1 : A ≠ ∅ <;> by_cases h2 : B ≠ ∅ <;> simp [h1, h2]

theorem keywordSim_comm (K1 K2 : Finset String) : keywordSim K1 K2 = keywordSim K2 K1 := by
  unfold keywordSim
  rw [Finset.inter_comm, Finset.union_comm]

/-! ## Helper lemmas about the search model -/

theorem insertAscPair_perm (x : ℚ × Nat) :
    ∀ l : List (ℚ × Nat), Perm (insertAscPair x l) (x :: l) := by
  intro l
  induction l with
  | nil => simp [insertAscPair]
  | cons y ys ih =>
    by_cases h : x.1 < y.1 ∨ (x.1 = y.1 ∧ x.2 ≤ y.2)
    · simp [insertAscPair, h]
    · rw [insertAscPair, if_neg h]
      exact (ih.cons y).trans (List.Perm.swap x y ys)

theorem sortAscPairs_perm : ∀ l : List (ℚ × Nat), Perm (sortAscPairs l) l := by
  intro l
  induction l with
  | nil => simp [sortAscPairs]
  | cons x xs ih => exact (insertAscPair_perm x _).trans (ih.cons x)

theorem faissSearch_length (vecs : List (List ℚ)) (q : List ℚ) (k : Nat) :
    (faissSearch vecs q k).length = min k vecs.length := by
  unfold faissSearch
  rw [List.length_take, (sortAscPairs_perm _).length_eq, List.length_map, List.length_range]

theorem mem_faissSearch {vecs : List (List ℚ)} {q : List ℚ} {k : Nat} {r : ℚ × Nat}
    (hr : r ∈ faissSearch vecs q k) :
    r.2 < vecs.length ∧ r.1 = sqL2 q (vecs.getD r.2 []) := by
  unfold faissSearch at hr
  have hr' := (sortAscPairs_perm _).mem_iff.mp (List.mem_of_mem_take hr)
  rcases List.mem_map.mp hr' with ⟨i, hi, hieq⟩
  subst hieq
  exact ⟨List.mem_range.mp hi, rfl⟩

theorem sqL2_nonneg (q v : List ℚ) : 0 ≤ sqL2 q v := by
  unfold sqL2
  apply List.sum_nonneg
  intro x hx
  rcases List.mem_map.mp hx with ⟨pr, _, hpr⟩
  subst hpr
  positivity

theorem validResults_eq (s : VSState) (a : Article) :
    validResults s a = vectorResults s a := by
  unfold validResults
  apply List.filter_eq_self.mpr
  intro r hr
  have h := (mem_faissSearch hr).1
  simp only [indexVectors, List.length_map] at h
  simpa using h

theorem vectorSims_length (s : VSState) (a : Article) :
    (vectorSims s a).length = min 3 s.thesis_embeddings.length := by
  unfold vectorSims
  rw [List.length_map, validResults_eq]
  unfold vectorResults
  rw [faissSearch_length]
  simp [indexVectors]

theorem vectorSims_pos (s : VSState) (a : Article) :
    ∀ x ∈ vectorSims s a, 0 < x := by
  intro x hx
  unfold vectorSims at hx
  rcases List.mem_map.mp hx with ⟨r, hr, hreq⟩
  subst hreq
  rw [validResults_eq] at hr
  have hd : 0 ≤ r.1 := by
    have := (mem_faissSearch hr).2
    rw [this]
    exact sqL2_nonneg _ _
  positivity

theorem textSims_nonneg (s : VSState) (a : Article) :
    ∀ x ∈ textSims s a, 0 ≤ x := by
  intro x hx
  rcases List.mem_map.mp hx with ⟨p, _, hpeq⟩
  subst hpeq
  exact calculate_text_similarity_nonneg _ _

/-! ## The relevance score as a closed formula -/

theorem sum_map_mul_const (c : ℚ) : ∀ l : List ℚ, (l.map (fun x => x * c)).sum = l.sum * c := by
  intro l
  induction l with
  | nil => simp
  | cons x xs ih => simp [ih]; ring

/-- What `sum(match_scores)` works out to: `0.4 * Σ` vector sims `+ 0.3 *`
keyword score `+ 0.2 * Σ` text sims `+ 0.1 *` content `+ 0.3 *` alignment
(the conditional terms contribute `0` exactly when their guards fail, since
the corresponding scores are `0` then). -/
theorem scoreArticle_relevance (s : VSState) (a : Article) :
    (scoreArticle s a).relevance_score
      = (vectorSims s a).sum * (4/10) + keyword_overlap s a * (3/10)
        + (textSims s a).sum * (2/10) + content_quality a * (1/10)
        + thesis_alignment s a * (3/10) := by
  show listSumQ _ = _
  rw [listSumQ_eq_sum]
  simp only [List.sum_append, sum_map_mul_const, List.sum_cons, List.sum_nil]
  have hkw : (if s.thesis_keywords ≠ [] ∧ a.keywords ≠ [] then
      [keyword_overlap s a * (3/10)] else ([] : List ℚ)).sum
      = keyword_overlap s a * (3/10) := by
    by_cases h : s.thesis_keywords ≠ [] ∧ a.keywords ≠ []
    · simp [h]
    · simp [h, keyword_overlap]
  have hal : (if alignCond s then [thesis_alignment s a * (3/10)] else ([] : List ℚ)).sum
      = thesis_alignment s a * (3/10) := by
    by_cases h : alignCond s
    · simp [h]
    · simp [h, thesis_alignment]
  rw [hkw, hal]
  ring

/-! ## The analyzer's point loop, declaratively -/

theorem analyze_point_loop (article_text : String) :
    ∀ (pts : List String) (ps0 : List ℚ) (m0 : List String) (c0 : ℚ),
      pts.foldl
        (fun acc p =>
          let s := calculate_text_similarity p article_text
          (acc.1 ++ [s],
           (if s > 3/10 then acc.2.1 ++ [p] else acc.2.1),
           (if s > 3/10 then acc.2.2 + s * (3/10) else acc.2.2)))
        ((ps0 : List ℚ), (m0 : List String), (c0 : ℚ))
      = (ps0 ++ pointScores pts article_text,
         m0 ++ matchedPointsOf pts article_text,
         c0 + pointContribution pts article_text) := by
  intro pts
  induction pts with
  | nil => intro ps0 m0 c0; simp [pointScores, matchedPointsOf, pointContribution]
  | cons p rest ih =>
    intro ps0 m0 c0
    simp only [List.foldl]
    rw [ih]
    by_cases h : calculate_text_similarity p article_text > 3/10
    · simp only [if_pos h]
      refine Prod.ext ?_ (Prod.ext ?_ ?_) <;>
        simp [pointScores, matchedPointsOf, pointContribution, List.filter_cons, h, add_assoc]
    · simp only [if_neg h]
      refine Prod.ext ?_ (Prod.ext ?_ ?_) <;>
        simp [pointScores, matchedPointsOf, pointContribution, List.filter_cons, h]

/-- Decomposition of the analyzer output: the overall score is the clamped sum
of the four method parts, and the matched points are exactly the points
scoring strictly above 0.3. -/
theorem analyze_thesis_alignment_decomp (article_text : String)
    (pts kws : List String) :
    (analyze_thesis_alignment article_text pts kws).overall_score
        = min (max (keywordScorePart article_text kws + pointContribution pts article_text
            + contentPart article_text pts kws + domainPart article_text) 0) 1
      ∧ (analyze_thesis_alignment article_text pts kws).matched_points
        = matchedPointsOf pts article_text := by
  unfold analyze_thesis_alignment
  rw [analyze_point_loop]
  constructor
  · simp only []
    ring_nf
  · simp

/-- A fold appending stripped lines that satisfy `P` is a filter of the
stripped lines. -/
theorem foldl_strip_filter (P : String → Prop) [DecidablePred P] (lines : List String) :
    lines.foldl (fun acc line =>
        let l := stripString line
        if P l then acc ++ [l] else acc) []
      = (lines.map stripString).filter (fun l => decide (P l)) := by
  rw [show (fun (acc : List String) line =>
        let l := stripString line
        if P l then acc ++ [l] else acc)
      = (fun acc line =>
        if P (stripString line) then acc ++ [stripString line] else acc) from rfl]
  rw [foldl_append_if_filter_map (fun line => P (stripString line)) stripString]
  rw [List.filter_map]
  simp only [Function.comp_def, List.nil_append]

theorem parse_thesis_false_points (t : String) :
    (parse_thesis false t).1
      = ((pySplitOn t '\n').map stripString).filter
          (fun l => decide (l ≠ "" ∧ l.length > 10)) := by
  show (pySplitOn t '\n').foldl (fun acc line =>
      let l := stripString line
      if l ≠ "" ∧ l.length > 10 then acc ++ [l] else acc) [] = _
  exact foldl_strip_filter (fun l => l ≠ "" ∧ l.length > 10) _

theorem parse_thesis_true_points (t : String) :
    (parse_thesis true t).1 = parse_points_spec t := by
  show (if ((pySplitOn t '\n').foldl (fun acc line =>
        let l := stripString line
        if (l ≠ "" ∧ l.length > 10) ∧ ¬ containsSkipPattern l then acc ++ [l] else acc)
          []).length < 3
      then ((pySplitOn t '\n').foldl (fun acc line =>
        let l := stripString line
        if (l ≠ "" ∧ l.length > 10) ∧ ¬ containsSkipPattern l then acc ++ [l] else acc)
          []).foldl
        (fun acc p =>
          if p.length > 200 then
            acc ++ (pySplitOn p '.').foldl
              (fun acc2 s =>
                let st := stripString s
                if st.length > 20 then acc2 ++ [st] else acc2) []
          else acc ++ [p]) []
      else (pySplitOn t '\n').foldl (fun acc line =>
        let l := stripString line
        if (l ≠ "" ∧ l.length > 10) ∧ ¬ containsSkipPattern l then acc ++ [l] else acc) [])
    = parse_points_spec t
  rw [foldl_strip_filter (fun l => (l ≠ "" ∧ l.length > 10) ∧ ¬ containsSkipPattern l)]
  have hresplit : ∀ pts : List String,
      pts.foldl
        (fun acc p =>
          if p.length > 200 then
            acc ++ (pySplitOn p '.').foldl
              (fun acc2 s =>
                let st := stripString s
                if st.length > 20 then acc2 ++ [st] else acc2) []
          else acc ++ [p]) []
      = pts.flatMap resplitPoint := by
    intro pts
    rw [show (fun (acc : List String) p =>
          if p.length > 200 then
            acc ++ (pySplitOn p '.').foldl
              (fun acc2 s =>
                let st := stripString s
                if st.length > 20 then acc2 ++ [st] else acc2) []
          else acc ++ [p])
        = (fun acc p => acc ++ resplitPoint p) from ?_]
    · rw [foldl_append_flatMap]
      simp
    · funext acc p
      by_cases h : p.length > 200
      · rw [if_pos h, resplitPoint, if_pos h, foldl_strip_filter (fun st => st.length > 20)]
      · rw [if_neg h, resplitPoint, if_neg h]
  rw [hresplit]
  rfl

theorem keptLines_strip {t p : String} (hp : p ∈ keptLines t) :
    stripString p = p ∧ p ≠ "" := by
  unfold keptLines at hp
  rcases List.mem_filter.mp hp with ⟨hmem, hpred⟩
  rcases List.mem_map.mp hmem with ⟨l, _, hleq⟩
  have hprop := of_decide_eq_true hpred
  exact ⟨by rw [← hleq]; exact stripString_idem l, hprop.1.1⟩

/-- Every point produced by either branch of `parse_thesis` is a non-empty
already-stripped string (so `add_thesis` embeds all of them). -/
theorem parse_points_strip (k : Bool) (t : String) :
    ∀ p ∈ (parse_thesis k t).1, stripString p = p ∧ p ≠ "" := by
  intro p hp
  cases k with
  | false =>
    rw [parse_thesis_false_points] at hp
    rcases List.mem_filter.mp hp with ⟨hmem, hpred⟩
    rcases List.mem_map.mp hmem with ⟨l, _, hleq⟩
    have hprop := of_decide_eq_true hpred
    exact ⟨by rw [← hleq]; exact stripString_idem l, hprop.1⟩
  | true =>
    rw [parse_thesis_true_points] at hp
    unfold parse_points_spec at hp
    by_cases h3 : (keptLines t).length < 3
    · rw [if_pos h3] at hp
      rcases List.mem_flatMap.mp hp with ⟨q, hq, hpq⟩
      unfold resplitPoint at hpq
      by_cases h200 : q.length > 200
      · rw [if_pos h200] at hpq
        rcases List.mem_filter.mp hpq with ⟨hm, hpred⟩
        rcases List.mem_map.mp hm with ⟨sfrag, _, hseq⟩
        have hlen : p.length > 20 := of_decide_eq_true hpred
        refine ⟨by rw [← hseq]; exact stripString_idem sfrag, ?_⟩
        intro he
        rw [he] at hlen
        simp [String.length] at hlen
      · rw [if_neg h200] at hpq
        simp only [List.mem_singleton] at hpq
        subst hpq
        exact keptLines_strip hq
    · rw [if_neg h3] at hp
      exact keptLines_strip hp

/-- `add_thesis` embeds every parsed point: the `strip()` guard filters out
nothing. -/
theorem add_thesis_embeddings (k : Bool) (s : VSState) (t : String) :
    (add_thesis k s t).thesis_embeddings
      = (parse_thesis k t).1.map (fun p => (p, embed_text p)) := by
  show ((parse_thesis k t).1.filter (fun p => stripString p != "")).map
      (fun p => (p, embed_text p)) = _
  congr 1
  apply List.filter_eq_self.mpr
  intro p hp
  have h := parse_points_strip k t p hp
  rw [bne_iff_ne, h.1]
  exact h.2

/-- The empty-index branch of `find_relevant_articles`: every result is a
default match. -/
theorem rank_default {s : VSState} (h : s.thesis_embeddings = [])
    (articles : List Article) :
    ∀ m ∈ find_relevant_articles s articles,
      m.relevance_score = 1 ∧ m.match_reason = "No thesis available for comparison" := by
  intro m hm
  unfold find_relevant_articles at hm
  rw [mem_sortDesc] at hm
  unfold matchList at hm
  rw [h] at hm
  simp only [List.length_nil, if_pos] at hm
  rcases List.mem_map.mp hm with ⟨a, _, hmeq⟩
  subst hmeq
  exact ⟨rfl, rfl⟩

theorem stateC1_embeddings_length : stateC1.thesis_embeddings.length = 2 := by
  show (add_thesis false initState thesisC1).thesis_embeddings.length = 2
  rw [add_thesis_embeddings, List.length_map]
  decide

theorem claimed_lt_actual_of_two_sims {s : VSState} {a : Article}
    (h2 : 2 ≤ (vectorSims s a).length) :
    claimedRelevanceC1 s a < (scoreArticle s a).relevance_score := by
  rw [scoreArticle_relevance]
  unfold claimedRelevanceC1 vector_similarity text_similarity
  have hvec : listMax0 (vectorSims s a) < (vectorSims s a).sum :=
    listMax0_lt_sum h2 (vectorSims_pos s a)
  have htext : listMax0 (textSims s a) ≤ (textSims s a).sum :=
    listMax0_le_sum (textSims_nonneg s a)
  linarith

/-! ## Claims -/

/-- C1, counterexample: with the two-point thesis `thesisC1` indexed, the
relevance score of `articleC1` is *not* the claimed weighted sum of maxima —
the code sums `0.4 * sim` over every returned neighbour and `0.2 * sim` over
every checked thesis point instead of taking maxima. -/
theorem claim_C1_counterexample :
    claimedRelevanceC1 stateC1 articleC1 ≠ (scoreArticle stateC1 articleC1).relevance_score := by
  apply ne_of_lt
  apply claimed_lt_actual_of_two_sims
  rw [vectorSims_length, stateC1_embeddings_length]
  norm_num

/-- C1 (amended): while at least one thesis point is indexed, ranking scores
each article with relevance equal to `0.4 * Σ` (over the `min(3, points)`
nearest neighbours) of `1/(1+d)` `+ 0.3 *` keyword overlap `+ 0.2 * Σ` (over
the first 3 thesis points) of the Similarity-Engine scores `+ 0.1 *` content
quality `+ 0.3 *` alignment score — sums, not maxima, of the vector and text
similarities. -/
theorem claim_C1 : ∀ (s : VSState) (articles : List Article),
    s.thesis_embeddings ≠ [] →
      find_relevant_articles s articles
        = sortDesc (fun m => m.relevance_score) (articles.map (scoreArticle s))
      ∧ ∀ a : Article, (scoreArticle s a).relevance_score
          = (vectorSims s a).sum * (4/10) + keyword_overlap s a * (3/10)
            + (textSims s a).sum * (2/10) + content_quality a * (1/10)
            + thesis_alignment s a * (3/10) := by
  intro s arts h
  constructor
  · unfold find_relevant_articles matchList
    rw [if_neg (by simpa [List.length_eq_zero] using h)]
  · intro a
    exact scoreArticle_relevance s a

theorem claim_C1_witness :
    stateC1.thesis_embeddings ≠ []
    ∧ find_relevant_articles stateC1 [articleC1]
        = sortDesc (fun m => m.relevance_score) ([articleC1].map (scoreArticle stateC1))
    ∧ (scoreArticle stateC1 articleC1).relevance_score
        = (vectorSims stateC1 articleC1).sum * (4/10)
          + keyword_overlap stateC1 articleC1 * (3/10)
          + (textSims stateC1 articleC1).sum * (2/10) + content_quality articleC1 * (1/10)
          + thesis_alignment stateC1 articleC1 * (3/10) := by
  have hne : stateC1.thesis_embeddings ≠ [] := by
    intro he
    have h2 := stateC1_embeddings_length
    rw [he] at h2
    simp at h2
  exact ⟨hne, (claim_C1 stateC1 [articleC1] hne).1,
    (claim_C1 stateC1 [articleC1] hne).2 articleC1⟩

set_option maxRecDepth 8000 in
unseal removeTags collapseWs wordRuns pySplit extendBack extendFwd Rat.add Rat.mul Rat.sub Rat.inv Rat.ofScientific in
/-- C2, counterexample: on a single thesis point whose similarity to the
article text is strictly between 0 and 0.3, the analyzer's overall score
differs from what it would be if the point contribution were `0.3 *` the mean
of all per-point scores — the code only adds contributions of points scoring
strictly above 0.3. -/
theorem claim_C2_counterexample :
    (analyze_thesis_alignment articleTextC2 [pointC2] []).overall_score
      ≠ min (max (keywordScorePart articleTextC2 []
          + claimedPointContributionC2 [pointC2] articleTextC2
          + contentPart articleTextC2 [pointC2] [] + domainPart articleTextC2) 0) 1 := by
  decide

/-- C2 (amended): the point-similarity contribution to the overall alignment
score is `0.3 *` the *sum of the scores strictly above 0.3* (not `0.3 *` the
mean over all points); every point scoring strictly above 0.3 — and only
those — appears in `matched_points`. -/
theorem claim_C2 : ∀ (article_text : String) (pts kws : List String),
    (analyze_thesis_alignment article_text pts kws).overall_score
      = min (max (keywordScorePart article_text kws + pointContribution pts article_text
          + contentPart article_text pts kws + domainPart article_text) 0) 1
    ∧ pointContribution pts article_text
      = (3/10) * ((pointScores pts article_text).filter (fun x => x > 3/10)).sum
    ∧ (analyze_thesis_alignment article_text pts kws).matched_points
      = matchedPointsOf pts article_text := by
  intro art pts kws
  obtain ⟨h1, h2⟩ := analyze_thesis_alignment_decomp art pts kws
  refine ⟨h1, ?_, h2⟩
  unfold pointContribution
  rw [sum_map_mul_const]
  ring

/-- C3: ranking with zero thesis points (initial state, or after submitting a
thesis that parses to no points) returns every article with relevance exactly
1.0 and reason "No thesis available for comparison". -/
theorem claim_C3 : ∀ articles : List Article,
    (∀ m ∈ find_relevant_articles initState articles,
        m.relevance_score = 1 ∧ m.match_reason = "No thesis available for comparison")
    ∧ ∀ (apiKey : Bool) (s : VSState) (t : String),
        (parse_thesis apiKey t).1 = [] →
        ∀ m ∈ find_relevant_articles (add_thesis apiKey s t) articles,
          m.relevance_score = 1 ∧ m.match_reason = "No thesis available for comparison" := by
  intro arts
  refine ⟨rank_default rfl arts, ?_⟩
  intro k s t hpts
  apply rank_default
  rw [add_thesis_embeddings, hpts]
  rfl

theorem claim_C3_witness :
    (parse_thesis false "hi").1 = []
    ∧ defaultMatch articleW ∈ find_relevant_articles (add_thesis false initState "hi") [articleW]
    ∧ (defaultMatch articleW).relevance_score = 1
    ∧ (defaultMatch articleW).match_reason = "No thesis available for comparison" := by
  have hmem : defaultMatch articleW
      ∈ find_relevant_articles (add_thesis false initState "hi") [articleW] := by decide
  have h := (claim_C3 [articleW]).2 false initState "hi" (by decide) (defaultMatch articleW) hmem
  exact ⟨by decide, hmem, h.1, h.2⟩

/-- C4: the ranked output (both branches) is sorted non-increasingly by
relevance score, and ties keep the input order: for every score value `c`,
the results with score `c` appear in exactly the order of the (input-ordered)
unsorted match list. -/
theorem claim_C4 : ∀ (s : VSState) (articles : List Article),
    (find_relevant_articles s articles).Pairwise
      (fun m1 m2 => m2.relevance_score ≤ m1.relevance_score)
    ∧ ∀ c : ℚ,
        (find_relevant_articles s articles).filter (fun m => m.relevance_score = c)
          = (matchList s articles).filter (fun m => m.relevance_score = c) := by
  intro s arts
  exact ⟨sortDesc_sorted _ _, fun c => sortDesc_filter_key_eq _ c _⟩

/-- C5: submitting a thesis fully replaces the thesis state — the result of
two successive submissions equals the result of the second alone, the index
holds exactly one vector per parsed point of the latest thesis, and the point
list is exactly the parse result (for both parser branches). -/
theorem claim_C5 : ∀ (apiKey : Bool) (s : VSState) (t1 t2 : String),
    add_thesis apiKey (add_thesis apiKey s t1) t2 = add_thesis apiKey s t2
    ∧ (indexVectors (add_thesis apiKey s t2)).length = (parse_thesis apiKey t2).1.length
    ∧ (add_thesis apiKey s t2).thesis_points = (parse_thesis apiKey t2).1 := by
  intro k s t1 t2
  refine ⟨rfl, ?_, rfl⟩
  unfold indexVectors
  rw [add_thesis_embeddings, List.length_map, List.length_map]

/-- C6: the offline hash embedding is a total function returning a vector of
length exactly 1536 for every text (including the empty string), and is
deterministic (it is a pure function of the text). -/
theorem claim_C6 : ∀ t : String,
    (embed_text t).length = 1536 ∧ embed_text t = embed_text t := by
  intro t
  refine ⟨?_, rfl⟩
  unfold embed_text
  rw [List.length_map, List.length_range]

set_option maxRecDepth 8000 in
unseal removeTags collapseWs wordRuns pySplit extendBack extendFwd Rat.add Rat.mul Rat.sub Rat.inv Rat.ofScientific in
/-- C7, counterexample: `difflib`'s sequence ratio is not symmetric
(`ratio("tide","diet") = 0.25` but `ratio("diet","tide") = 0.5`), so the
blended similarity differs under argument swap: `0.075` versus `0.15`. -/
theorem claim_C7_counterexample :
    calculate_text_similarity "tide" "diet" ≠ calculate_text_similarity "diet" "tide" := by
  decide

/-- C7 (amended): the word-Jaccard, trigram-Jaccard and keyword-density
sub-metrics are symmetric for all inputs; the character-sequence ratio (and
hence the blended similarity) is not. -/
theorem claim_C7 : ∀ a b : String,
    jaccardPart a b = jaccardPart b a
    ∧ ngramPart a b = ngramPart b a
    ∧ keywordPart a b = keywordPart b a := by
  intro a b
  exact ⟨jaccardOf_comm _ _, jaccardOf_comm _ _, keywordSim_comm _ _⟩

set_option maxRecDepth 8000 in
unseal removeTags collapseWs wordRuns pySplit extendBack extendFwd Rat.add Rat.mul Rat.sub Rat.inv Rat.ofScientific in
/-- C8, counterexample: `similarity(a, a)` is not 1.0 for every non-empty `a`:
a two-word text with short words has no trigrams and no length-> 3 keywords, so
`similarity("hi yo", "hi yo") = 0.6`. -/
theorem claim_C8_counterexample :
    calculate_text_similarity "hi yo" "hi yo" ≠ 1 := by
  decide

set_option maxRecDepth 8000 in
unseal removeTags collapseWs wordRuns pySplit extendBack extendFwd Rat.add Rat.mul Rat.sub Rat.inv Rat.ofScientific in
/-- C8 (amended): on the spec's example, all four sub-metrics are maximal and
the similarity is exactly 1.0. -/
theorem claim_C8 :
    sequencePart "the quick brown fox" "the quick brown fox" = 1
    ∧ jaccardPart "the quick brown fox" "the quick brown fox" = 1
    ∧ ngramPart "the quick brown fox" "the quick brown fox" = 1
    ∧ keywordPart "the quick brown fox" "the quick brown fox" = 1
    ∧ calculate_text_similarity "the quick brown fox" "the quick brown fox" = 1 := by
  decide

/-- C9: the pattern-based thesis parser keeps exactly the stripped lines of
length > 10 containing no section-header marker and, when fewer than 3 points
result, re-splits each point longer than 200 characters on `'.'` keeping
stripped fragments of length > 20. -/
theorem claim_C9 : ∀ t : String, (parse_thesis true t).1 = parse_points_spec t :=
  parse_thesis_true_points

theorem md5hex_data (t : String) :
    (md5hex t).data
      = (List.range 32).map (fun k => hexDigitChar (md5digest t / 16 ^ (31 - k) % 16)) := rfl

theorem md5hex_length (t : String) : (md5hex t).length = 32 := by
  show (md5hex t).data.length = 32
  rw [md5hex_data, List.length_map, List.length_range]

theorem hexVal_hexDigitChar (n : Nat) : hexVal (hexDigitChar (n % 16)) ≤ 15 := by
  have h : ∀ m, m < 16 → hexVal (hexDigitChar m) ≤ 15 := by decide
  exact h _ (Nat.mod_lt _ (by norm_num))

theorem md5hex_mem_hexVal {t : String} {c : Char} (hc : c ∈ (md5hex t).data) :
    hexVal c ≤ 15 := by
  rw [md5hex_data] at hc
  rcases List.mem_map.mp hc with ⟨k, _, hk⟩
  subst hk
  exact hexVal_hexDigitChar _

theorem hexListVal_lt : ∀ l : List Char, (∀ c ∈ l, hexVal c ≤ 15)
    → hexListVal l < 16 ^ l.length := by
  intro l
  induction l with
  | nil => intro _; simp [hexListVal]
  | cons c cs ih =>
    intro h
    have hc := h c (by simp)
    have hcs := ih (fun d hd => h d (by simp [hd]))
    simp only [hexListVal, List.length_cons]
    rw [pow_succ]
    have h1 : hexVal c * 16 ^ cs.length ≤ 15 * 16 ^ cs.length :=
      Nat.mul_le_mul_right _ hc
    omega

/-- C10: in the offline hash embedding, the 4-hex-character window starting at
`(i*4) % 32` always fits inside the 32-character hex digest (so the `0.0`
fallback branch is unreachable and the embedding is exactly the
window-parsing map), and every component lies in `[0, 65535/100000]`; the
`FallbackMatcher.create_embedding` copy computes the same vector. -/
theorem claim_C10 : ∀ t : String,
    (∀ i : ℕ, (i * 4) % (md5hex t).length + 4 ≤ (md5hex t).length)
    ∧ embed_text t = (List.range 1536).map (fun i =>
        ((hexListVal (((md5hex t).data.drop ((i * 4) % (md5hex t).length)).take 4) : ℚ)
          / 100000))
    ∧ (embed_text t).Forall (fun x => 0 ≤ x ∧ x ≤ 65535 / 100000)
    ∧ create_embedding t = embed_text t := by
  intro t
  have hwin : ∀ i : ℕ, (i * 4) % (md5hex t).length + 4 ≤ (md5hex t).length := by
    intro i
    rw [md5hex_length]
    have h1 : (i * 4) % 32 = i % 8 * 4 := by
      conv_lhs => rw [show (32 : ℕ) = 8 * 4 from rfl]
      exact Nat.mul_mod_mul_right 4 i 8
    have h2 : i % 8 < 8 := Nat.mod_lt _ (by norm_num)
    omega
  have hmap : embed_text t = (List.range 1536).map (fun i =>
      ((hexListVal (((md5hex t).data.drop ((i * 4) % (md5hex t).length)).take 4) : ℚ)
        / 100000)) := by
    unfold embed_text
    apply List.map_congr_left
    intro i _
    exact if_pos (hwin i)
  refine ⟨hwin, hmap, ?_, rfl⟩
  rw [List.forall_iff_forall_mem]
  intro x hx
  rw [hmap] at hx
  rcases List.mem_map.mp hx with ⟨i, _, hieq⟩
  subst hieq
  constructor
  · positivity
  · have hchars : ∀ c ∈ ((md5hex t).data.drop ((i * 4) % (md5hex t).length)).take 4,
        hexVal c ≤ 15 := by
      intro c hc
      exact md5hex_mem_hexVal (List.mem_of_mem_drop (List.mem_of_mem_take hc))
    have hlt := hexListVal_lt _ hchars
    have hlen : (((md5hex t).data.drop ((i * 4) % (md5hex t).length)).take 4).length ≤ 4 := by
      simp [List.length_take]
    have hpow : (16 : ℕ) ^ (((md5hex t).data.drop ((i * 4) % (md5hex t).length)).take 4).length
        ≤ 16 ^ 4 := Nat.pow_le_pow_right (by norm_num) hlen
    have hv : hexListVal (((md5hex t).data.drop ((i * 4) % (md5hex t).length)).take 4)
        ≤ 65535 := by omega
    have hq : ((hexListVal (((md5hex t).data.drop ((i * 4) % (md5hex t).length)).take 4) : ℕ)
        : ℚ) ≤ 65535 := by exact_mod_cast hv
    have h100 : (0 : ℚ) < 100000 := by norm_num
    exact (div_le_div_iff_of_pos_right h100).mpr hq

end FactorSourcing
